import Mathlib

/-!
Shallow embedding of the `cnquadtree` crate (a Cardinal Neighbor region
quadtree) for checking its natural-language specification.

Sources embedded:
  * `src/location.rs` — `Cardinality`, `Location` and their operations;
  * `src/node.rs` — the `CNNode` record (arena indices are `Nat`);
  * `src/tree.rs` — `get_neighbors`, `find_cardinal_neighbor`,
    the `SubdivideError` types;
  * `src/slottree.rs` — `CNQuadtree`: `new`, `subdivide`, `pop_children`,
    `point_locate` and their helpers.

Modelling conventions:
  * The `SlotMap` arena is a list of `Option` slots; `insert` appends a fresh
    slot (so keys are never reused), `remove` tombstones a slot.  This matches
    the observable behaviour of versioned slotmap keys: a removed key never
    resolves again and fresh keys are distinct from all earlier ones.
  * The coordinate unit `S` (defaulting to `u32` in the source) is `Nat`; the
    only arithmetic performed on it by the embedded operations is
    `(a + b) / 2` and the half-open bounds comparisons, which agree with `u32`
    on all inputs appearing in the development.
  * Rust panics (a failed `unwrap`/`expect`, a debug-build arithmetic
    underflow, an out-of-bounds index) are modelled by `Option`: a mutating
    operation returns `none` exactly when the source panics.
  * The unbounded `loop`s of the source take an explicit fuel argument; the
    canonical fuel (arena size + 1) is strictly larger than the number of
    live nodes, so fuel can only run out when a pointer walk revisits a node,
    a situation in which the source diverges.
-/

namespace CNQ

/-- The four cardinal directions, in the source order West, North, East,
South (`location.rs`). -/
inductive Cardinality
  | West
  | North
  | East
  | South
deriving DecidableEq, Repr

/-- Discriminant of a `Cardinality` (its `as usize` value). -/
def Cardinality.toNat : Cardinality → Nat
  | .West => 0
  | .North => 1
  | .East => 2
  | .South => 3

/-- Inverse of `Cardinality.toNat` on `0..3`; total since every value the
source converts (`(d + 2) % 4` and `3 - d`) lies in range, so the source's
`try_into().unwrap()` never panics. -/
def Cardinality.ofIdx : Nat → Cardinality
  | 0 => .West
  | 1 => .North
  | 2 => .East
  | _ => .South

/-- `Cardinality::opposite` from `location.rs`: `((d as usize + 2) % 4)`. -/
def Cardinality.opposite (d : Cardinality) : Cardinality :=
  Cardinality.ofIdx ((d.toNat + 2) % 4)

/-- `Cardinality::next_neighbor` from `location.rs`: `3 - d as usize`. -/
def Cardinality.next_neighbor (d : Cardinality) : Cardinality :=
  Cardinality.ofIdx (3 - d.toNat)

/-- The four quadrant locations, in the source order NorthWest, NorthEast,
SouthWest, SouthEast (`location.rs`). -/
inductive Location
  | NorthWest
  | NorthEast
  | SouthWest
  | SouthEast
deriving DecidableEq, Repr

/-- The `[Option<I>; 4]` neighbor array of a node, indexed by `Cardinality`
discriminants W=0, N=1, E=2, S=3 (`node.rs`). -/
structure Neighbors where
  w : Option Nat
  n : Option Nat
  e : Option Nat
  s : Option Nat
deriving DecidableEq, Repr

/-- Read the neighbor slot for a direction (array indexing by
`direction as usize`). -/
def Neighbors.get (ns : Neighbors) : Cardinality → Option Nat
  | .West => ns.w
  | .North => ns.n
  | .East => ns.e
  | .South => ns.s

/-- Write the neighbor slot for a direction (`CNNode::update_neighbor`). -/
def Neighbors.set (ns : Neighbors) (d : Cardinality) (v : Option Nat) : Neighbors :=
  match d with
  | .West => { ns with w := v }
  | .North => { ns with n := v }
  | .East => { ns with e := v }
  | .South => { ns with s := v }

/-- The `[I; 4]` children array of an internal node, indexed by `Location`
discriminants NW=0, NE=1, SW=2, SE=3 (`node.rs`). -/
structure Quad where
  nw : Nat
  ne : Nat
  sw : Nat
  se : Nat
deriving DecidableEq, Repr

/-- The children array as a list, in NW/NE/SW/SE order. -/
def Quad.toList (q : Quad) : List Nat :=
  [q.nw, q.ne, q.sw, q.se]

/-- Indexing the children array by a `usize` in `0..3` (used by
`point_locate`). -/
def Quad.get (q : Quad) : Nat → Nat
  | 0 => q.nw
  | 1 => q.ne
  | 2 => q.sw
  | _ => q.se

/-- A group of four payloads, in NW/NE/SW/SE order: the `[T; 4]` item arrays
passed to `subdivide` and returned by `pop_children`. -/
structure Four (T : Type) where
  nw : T
  ne : T
  sw : T
  se : T
deriving DecidableEq, Repr

/-- `CNNode` from `node.rs`: payload, depth, bounds `(min x, min y, max x,
max y)`, optional parent index, the four neighbor slots and the optional four
children indices. -/
structure CNNode (T : Type) where
  item : T
  layer : Nat
  bounds : Nat × Nat × Nat × Nat
  parent : Option Nat
  neighbors : Neighbors
  children : Option Quad
deriving DecidableEq, Repr

/-- `PartialEq for CNNode` compares the bounds only (`node.rs`). -/
def CNNode.beq {T : Type} (a b : CNNode T) : Prop :=
  a.bounds = b.bounds

instance {T : Type} (a b : CNNode T) : Decidable (CNNode.beq a b) := by
  unfold CNNode.beq
  infer_instance

/-- `RegionQuadtreeNode::point_in` from `node.rs`: half-open containment on
both axes. -/
def CNNode.point_in {T : Type} (nd : CNNode T) (point : Nat × Nat) : Prop :=
  (nd.bounds.1 ≤ point.1 ∧ point.1 < nd.bounds.2.2.1) ∧
    (nd.bounds.2.1 ≤ point.2 ∧ point.2 < nd.bounds.2.2.2)

instance {T : Type} (nd : CNNode T) (p : Nat × Nat) : Decidable (nd.point_in p) := by
  unfold CNNode.point_in
  infer_instance

/-- The slotmap arena: a list of slots, each live (`some`) or removed
(`none`).  A key is a list position. -/
structure Store (T : Type) where
  slots : List (Option (CNNode T))
deriving DecidableEq, Repr

/-- `SlotMap::get`: `none` for an out-of-range or removed key. -/
def Store.get {T : Type} (st : Store T) (i : Nat) : Option (CNNode T) :=
  st.slots.getD i none

/-- `SlotMap::insert`: allocate a fresh key for the node. -/
def Store.insert {T : Type} (st : Store T) (nd : CNNode T) : Nat × Store T :=
  (st.slots.length, ⟨st.slots ++ [some nd]⟩)

/-- Overwrite a live slot (the effect of mutating through
`get_node_mut`). -/
def Store.set {T : Type} (st : Store T) (i : Nat) (nd : CNNode T) : Store T :=
  ⟨st.slots.set i (some nd)⟩

/-- `SlotMap::remove`: tombstone the slot, returning the removed node. -/
def Store.remove {T : Type} (st : Store T) (i : Nat) : Option (CNNode T) × Store T :=
  (st.get i, ⟨st.slots.set i none⟩)

/-- `CNQuadtree` from `slottree.rs`: the arena, the root key and the
per-depth population counters. -/
structure CNQuadtree (T : Type) where
  store : Store T
  root_key : Nat
  layers : List Nat
deriving DecidableEq, Repr

/-- `CNQuadtree::new`: a single root node at depth 0 with no parent, no
neighbors and no children; `layers = vec![1]`. -/
def CNQuadtree.new {T : Type} (item : T) (bounds : Nat × Nat × Nat × Nat) :
    CNQuadtree T :=
  { store := ⟨[some (CNNode.mk item 0 bounds none ⟨none, none, none, none⟩ none)]⟩
    root_key := 0
    layers := [1] }

/-- `RegionQuadtree::get_node`. -/
def CNQuadtree.get_node {T : Type} (t : CNQuadtree T) (i : Nat) : Option (CNNode T) :=
  t.store.get i

/-- Overwrite a node slot; the pure counterpart of mutating through
`get_node_mut` once the key is known to be live. -/
def CNQuadtree.set_node {T : Type} (t : CNQuadtree T) (i : Nat) (nd : CNNode T) :
    CNQuadtree T :=
  { t with store := t.store.set i nd }

/-- `self.get_node_mut(i).unwrap()` followed by a field update: `none`
models the panic on a dead key. -/
def CNQuadtree.modify_node {T : Type} (t : CNQuadtree T) (i : Nat)
    (f : CNNode T → CNNode T) : Option (CNQuadtree T) :=
  (t.get_node i).map fun nd => t.set_node i (f nd)

/-- The `loop` of `RegionQuadtree::get_neighbors` (`tree.rs`): push the
current neighbor, advance through its `next_neighbor(direction)` pointer, and
stop when a pointer is absent or dead, when the reached node's depth is `≥`
the query node's depth, or when its `opposite(direction)` pointer does not
resolve back to the query node (node equality is bounds equality).  Fuel
exhaustion (only possible on a cyclic pointer walk, where the source
diverges) returns the list collected so far. -/
def gnLoop {T : Type} (t : CNQuadtree T) (node : CNNode T) (d : Cardinality) :
    Nat → Nat → CNNode T → List Nat → List Nat
  | 0, nIdx, _, acc => acc ++ [nIdx]
  | fuel + 1, nIdx, nbr, acc =>
    let acc := acc ++ [nIdx]
    match nbr.neighbors.get d.next_neighbor with
    | none => acc
    | some nIdx2 =>
      match t.get_node nIdx2 with
      | none => acc
      | some nbr2 =>
        match nbr2.neighbors.get d.opposite with
        | none => acc
        | some oppIdx =>
          match t.get_node oppIdx with
          | none => acc
          | some opp =>
            if node.layer ≤ nbr2.layer ∨ ¬ node.beq opp then acc
            else gnLoop t node d fuel nIdx2 nbr2 acc

/-- `RegionQuadtree::get_neighbors` (`tree.rs`): `none` when the query index
is dead, when the node's neighbor pointer in `direction` is absent, or when
that first pointer is dead; otherwise the walk of `gnLoop` starting at the
first neighbor. -/
def CNQuadtree.get_neighbors {T : Type} (t : CNQuadtree T) (index : Nat)
    (d : Cardinality) : Option (List Nat) := do
  let node ← t.get_node index
  let firstIdx ← node.neighbors.get d
  let first ← t.get_node firstIdx
  some (gnLoop t node d (t.store.slots.length + 1) firstIdx first [])

end CNQ

namespace CNQ

/-- The `while layers[0] != 0` loop of `find_cardinal_neighbor` (`tree.rs`).
The guard is tested before every iteration; when it fails the loop returns
the current position.  The body mirrors the source: grow `layers` to index
`current.level().saturating_sub(child_layer)`, increment that counter, run
the carry pass from the highest index down, then advance through the
current neighbor's `next_neighbor(direction)` pointer (`none` models the
`?` on an absent or dead pointer).  Fuel exhaustion with the guard still
true models divergence. -/
def fcnLoop {T : Type} (t : CNQuadtree T) (child_layer : Nat) (d : Cardinality) :
    Nat → List Nat → Nat → CNNode T → Option (Nat × CNNode T)
  | 0, layers, idx, cur =>
    if layers.headD 0 ≠ 0 then none else some (idx, cur)
  | fuel + 1, layers, idx, cur =>
    if layers.headD 0 ≠ 0 then
      let i := cur.layer - child_layer
      let layers := if layers.length ≤ i
        then layers ++ List.replicate (i + 1 - layers.length) 0 else layers
      let layers := layers.set i (layers.getD i 0 + 1)
      let layers := (List.range layers.length).reverse.foldl
        (fun ls j =>
          if 2 ≤ ls.getD j 0 ∧ j ≠ 0
          then (ls.set j 0).set (j - 1) (ls.getD (j - 1) 0 + 1)
          else ls) layers
      match cur.neighbors.get d.next_neighbor with
      | none => none
      | some idx2 =>
        match t.get_node idx2 with
        | none => none
        | some cur2 => fcnLoop t child_layer d fuel layers idx2 cur2
    else some (idx, cur)

/-- `find_cardinal_neighbor` from `tree.rs`: resolve the inherited neighbor,
run the border-walk loop starting from `layers = vec![0]`, then return one
further `next_neighbor(direction)` step from the final position (`none`
models the `?` on a dead index or absent pointer). -/
def find_cardinal_neighbor {T : Type} (t : CNQuadtree T) (child_layer : Nat)
    (d : Cardinality) (inherited : Nat) : Option Nat := do
  let cur0 ← t.get_node inherited
  let (_, cur) ← fcnLoop t child_layer d (t.store.slots.length + 1) [0] inherited cur0
  cur.neighbors.get d.next_neighbor

/-- `CNQuadtree::get_children_cardinal_neighbors` (`slottree.rs`): an absent
inherited neighbor gives `(none, none)`; otherwise the pair of the inherited
neighbor and the `find_cardinal_neighbor` lookup at `parent_layer + 1`. -/
def CNQuadtree.get_children_cardinal_neighbors {T : Type} (t : CNQuadtree T)
    (cardinal_neighbor : Option Nat) (parent_layer : Nat) (d : Cardinality) :
    Option Nat × Option Nat :=
  match cardinal_neighbor with
  | none => (none, none)
  | some inherited =>
    (some inherited, find_cardinal_neighbor t (parent_layer + 1) d inherited)

/-- The `for neighbor in neighbors` loop of
`CNQuadtree::update_neighbors_to_children` (`slottree.rs`).  Each iteration
unwraps `second_child_cardinal_neighbor` (`none` models the panic when it is
absent), switches the running `new_neighbor` to `second_child` when the
collected neighbor equals that unwrapped index, and writes `new_neighbor`
into the collected neighbor's slot for `cardinality` — the direction of the
collected neighbors relative to the split node, not its opposite. -/
def untcLoop {T : Type} (second_child : Nat) (sccn : Option Nat) (d : Cardinality) :
    List Nat → Option Nat → CNQuadtree T → Option (CNQuadtree T)
  | [], _, t => some t
  | nb :: rest, new_neighbor, t => do
    let sc ← sccn
    let new_neighbor := if nb = sc then some second_child else new_neighbor
    let t ← t.modify_node nb fun nd => { nd with neighbors := nd.neighbors.set d new_neighbor }
    untcLoop second_child sccn d rest new_neighbor t

/-- `CNQuadtree::update_neighbors_to_children` (`slottree.rs`): skip when no
neighbor list was collected, otherwise run `untcLoop` with `new_neighbor`
initialized to `first_child`. -/
def CNQuadtree.update_neighbors_to_children {T : Type} (t : CNQuadtree T)
    (neighbors : Option (List Nat)) (first_child second_child : Nat)
    (second_child_cardinal_neighbor : Option Nat) (d : Cardinality) :
    Option (CNQuadtree T) :=
  match neighbors with
  | none => some t
  | some ns => untcLoop second_child second_child_cardinal_neighbor d ns (some first_child) t

/-- `SubdivideErrorEnum` from `tree.rs`. -/
inductive SubdivideErrorEnum
  | InvalidIndex
  | AlreadySubdivided
deriving DecidableEq, Repr

/-- `SubdivideError` from `tree.rs`: the caller's items together with the
error kind. -/
structure SubdivideError (T : Type) where
  items : Four T
  source : SubdivideErrorEnum
deriving DecidableEq, Repr

/-- Outcome of one `subdivide` call: the error or the four new keys, paired
with the resulting tree state. -/
inductive SubdivideOut (T : Type)
  | err (e : SubdivideError T) (t : CNQuadtree T)
  | ok (keys : Quad) (t : CNQuadtree T)
deriving DecidableEq, Repr

/-- `CNQuadtree::subdivide` (`slottree.rs`), with `none` modelling a panic.
The structure mirrors the source step by step: precondition match (errors
return the items and leave the tree untouched), midpoint computation, the
four `get_neighbors` reads, the four `get_children_cardinal_neighbors`
lookups, insertion of the four children, the sibling/external neighbor
writes on the children, the four `update_neighbors_to_children` calls in
W/N/E/S order, the parent update, and the `layers` bookkeeping. -/
def CNQuadtree.subdivide {T : Type} (t : CNQuadtree T) (index : Nat)
    (items : Four T) : Option (SubdivideOut T) :=
  match t.get_node index with
  | none => some (.err ⟨items, .InvalidIndex⟩ t)
  | some x =>
    if x.children.isSome then some (.err ⟨items, .AlreadySubdivided⟩ t)
    else
      let parent_layer := x.layer
      let left := x.bounds.1
      let top := x.bounds.2.1
      let right := x.bounds.2.2.1
      let bottom := x.bounds.2.2.2
      let x_middle := (left + right) / 2
      let y_middle := (top + bottom) / 2
      let w_neighbors := t.get_neighbors index .West
      let n_neighbors := t.get_neighbors index .North
      let e_neighbors := t.get_neighbors index .East
      let s_neighbors := t.get_neighbors index .South
      let pN := t.get_children_cardinal_neighbors (n_neighbors.bind List.head?)
        parent_layer .North
      let ne_n_neighbor := pN.1
      let nw_n_neighbor := pN.2
      let pW := t.get_children_cardinal_neighbors (w_neighbors.bind List.head?)
        parent_layer .West
      let sw_w_neighbor := pW.1
      let nw_w_neighbor := pW.2
      let pS := t.get_children_cardinal_neighbors (s_neighbors.bind List.head?)
        parent_layer .South
      let sw_s_neighbor := pS.1
      let se_s_neighbor := pS.2
      let pE := t.get_children_cardinal_neighbors (e_neighbors.bind List.head?)
        parent_layer .East
      let ne_e_neighbor := pE.1
      let se_e_neighbor := pE.2
      let nw_node := CNNode.mk items.nw (parent_layer + 1)
        (left, top, x_middle, y_middle) (some index) ⟨none, none, none, none⟩ none
      let ne_node := CNNode.mk items.ne (parent_layer + 1)
        (x_middle, top, right, y_middle) (some index) ⟨none, none, none, none⟩ none
      let sw_node := CNNode.mk items.sw (parent_layer + 1)
        (left, y_middle, x_middle, bottom) (some index) ⟨none, none, none, none⟩ none
      let se_node := CNNode.mk items.se (parent_layer + 1)
        (x_middle, y_middle, right, bottom) (some index) ⟨none, none, none, none⟩ none
      let r1 := t.store.insert nw_node
      let nw_key := r1.1
      let r2 := r1.2.insert ne_node
      let ne_key := r2.1
      let r3 := r2.2.insert sw_node
      let sw_key := r3.1
      let r4 := r3.2.insert se_node
      let se_key := r4.1
      let t := { t with store := r4.2 }
      do
        let t ← t.modify_node nw_key fun nd =>
          { nd with neighbors := ⟨nw_w_neighbor, nw_n_neighbor, some ne_key, some sw_key⟩ }
        let t ← t.modify_node ne_key fun nd =>
          { nd with neighbors := ⟨some nw_key, ne_n_neighbor, ne_e_neighbor, some se_key⟩ }
        let t ← t.modify_node sw_key fun nd =>
          { nd with neighbors := ⟨sw_w_neighbor, some nw_key, some se_key, sw_s_neighbor⟩ }
        let t ← t.modify_node se_key fun nd =>
          { nd with neighbors := ⟨some sw_key, some ne_key, se_e_neighbor, se_s_neighbor⟩ }
        let t ← t.update_neighbors_to_children w_neighbors nw_key sw_key
          sw_w_neighbor .West
        let t ← t.update_neighbors_to_children n_neighbors nw_key ne_key
          ne_n_neighbor .North
        let t ← t.update_neighbors_to_children e_neighbors se_key ne_key
          se_e_neighbor .East
        let t ← t.update_neighbors_to_children s_neighbors sw_key se_key
          sw_s_neighbor .South
        let t ← t.modify_node index fun nd =>
          { nd with neighbors := ⟨none, none, none, none⟩
                    children := some ⟨nw_key, ne_key, sw_key, se_key⟩ }
        let layers := if t.layers.length ≤ parent_layer + 1
          then t.layers ++ List.replicate (parent_layer + 2 - t.layers.length) 0
          else t.layers
        let layers := layers.set (parent_layer + 1) (layers.getD (parent_layer + 1) 0 + 4)
        some (.ok ⟨nw_key, ne_key, sw_key, se_key⟩ { t with layers := layers })

end CNQ

namespace CNQ

/-- The children check loop of `CNQuadtree::pop_children` (`slottree.rs`):
`self.get_node(*child).unwrap().has_children()` for each child in order,
returning at the first child that has children.  `none` models the unwrap
panic on a dead child key; `some true` means some child has children. -/
def childrenHaveChildren {T : Type} (t : CNQuadtree T) : List Nat → Option Bool
  | [] => some false
  | c :: rest => do
    let nd ← t.get_node c
    if nd.children.isSome then some true else childrenHaveChildren t rest

/-- The update loop of `CNQuadtree::get_and_update_children_neighbors`
(`slottree.rs`): point every collected neighbor's `cardinality.opposite()`
slot at the parent.  `none` models the unwrap panic on a dead key. -/
def gaucnLoop {T : Type} (parent : Nat) (d : Cardinality) :
    List Nat → CNQuadtree T → Option (CNQuadtree T)
  | [], t => some t
  | nb :: rest, t => do
    let t ← t.modify_node nb fun nd =>
      { nd with neighbors := nd.neighbors.set d.opposite (some parent) }
    gaucnLoop parent d rest t

/-- `CNQuadtree::get_and_update_children_neighbors` (`slottree.rs`): the
function's own `?` on either child's `get_neighbors` yields `(none, t)`
without touching the tree; otherwise the concatenated lists are repointed at
the parent and the first entry is returned (`neighbors[0]`, whose indexing
panic on an empty list is modelled by the outer `none`). -/
def CNQuadtree.get_and_update_children_neighbors {T : Type} (t : CNQuadtree T)
    (first_child second_child parent : Nat) (d : Cardinality) :
    Option (Option Nat × CNQuadtree T) :=
  match t.get_neighbors first_child d with
  | none => some (none, t)
  | some ns1 =>
    match t.get_neighbors second_child d with
    | none => some (none, t)
    | some ns2 =>
      let ns := ns1 ++ ns2
      match gaucnLoop parent d ns t with
      | none => none
      | some t =>
        match ns with
        | [] => none
        | h :: _ => some (some h, t)

/-- `CNQuadtree::pop_children` (`slottree.rs`), with the outer `none`
modelling a panic and the inner `none` the source's `None` result.  The
structure mirrors the source: precondition match (no node or no children
returns `None` with the tree untouched), the children check loop, the four
`get_and_update_children_neighbors` calls in W/N/E/S order, the parent
update, the `layers[parent_layer + 1] -= 4` bookkeeping (indexing or
underflow panics are `none`), and the four removals in NW/NE/SW/SE order. -/
def CNQuadtree.pop_children {T : Type} (t : CNQuadtree T) (index : Nat) :
    Option (Option (Four T) × CNQuadtree T) :=
  match t.get_node index with
  | none => some (none, t)
  | some nd =>
    match nd.children with
    | none => some (none, t)
    | some q => do
      let parent_layer := nd.layer
      let bad ← childrenHaveChildren t q.toList
      if bad then some (none, t)
      else do
        let (w_cneighbor, t) ← t.get_and_update_children_neighbors q.nw q.sw index .West
        let (n_cneighbor, t) ← t.get_and_update_children_neighbors q.nw q.ne index .North
        let (e_cneighbor, t) ← t.get_and_update_children_neighbors q.se q.ne index .East
        let (s_cneighbor, t) ← t.get_and_update_children_neighbors q.se q.sw index .South
        let t ← t.modify_node index fun p =>
          { p with neighbors := ⟨w_cneighbor, n_cneighbor, e_cneighbor, s_cneighbor⟩
                   children := none }
        if parent_layer + 1 < t.layers.length then
          let v := t.layers.getD (parent_layer + 1) 0
          if v < 4 then none
          else do
            let t := { t with layers := t.layers.set (parent_layer + 1) (v - 4) }
            let rm1 := t.store.remove q.nw
            let nw_node ← rm1.1
            let rm2 := rm1.2.remove q.ne
            let ne_node ← rm2.1
            let rm3 := rm2.2.remove q.sw
            let sw_node ← rm3.1
            let rm4 := rm3.2.remove q.se
            let se_node ← rm4.1
            some (some ⟨nw_node.item, ne_node.item, sw_node.item, se_node.item⟩,
              { t with store := rm4.2 })
        else none

/-- `CNQuadtree::get_max_level` (`slottree.rs`): the largest depth with a
positive population count; `none` models the `unwrap` panic when no depth is
populated. -/
def CNQuadtree.get_max_level {T : Type} (t : CNQuadtree T) : Option Nat :=
  (t.layers.enum.filterMap fun p => if 0 < p.2 then some p.1 else none).max?

/-- The descent loop of `CNQuadtree::point_locate` (`slottree.rs`).  While
the current node has children: the child index is
`((x_loc & (1 << next_level)) >> next_level) +
((y_loc & (1 << next_level)) >> (next_level - 1))`; when `next_level = 0`
the `next_level - 1` shift amount underflows, which panics in a debug build
(`none` here); then descend through `children[child_index]` (dead key =
unwrap panic) and decrement `next_level`.  After the loop the source's
`debug_assert!(node.point_in(point))` panic is modelled, and the final index
is returned.  Fuel exhaustion models divergence. -/
def plDescent {T : Type} (t : CNQuadtree T) (point : Nat × Nat)
    (x_loc_code y_loc_code : Nat) :
    Nat → Nat → CNNode T → Nat → Option (Option Nat)
  | 0, _, _, _ => none
  | fuel + 1, idx, nd, next_level =>
    match nd.children with
    | none =>
      if nd.point_in point then some (some idx) else none
    | some q =>
      if next_level = 0 then none
      else
        let child_branch_bit := 2 ^ next_level
        let child_index := ((x_loc_code &&& child_branch_bit) >>> next_level)
          + ((y_loc_code &&& child_branch_bit) >>> (next_level - 1))
        let cidx := q.get child_index
        match t.get_node cidx with
        | none => none
        | some cnd => plDescent t point x_loc_code y_loc_code fuel cidx cnd (next_level - 1)

/-- `CNQuadtree::point_locate` (`slottree.rs`) up to its floating-point
locational codes.  The source computes `x_loc_code`/`y_loc_code` from the
point with `f32` arithmetic; those two values are abstracted as parameters
here, and every surrounding step follows the source: the root lookup (`?` =
absent), the half-open containment test, the leaf-root early return, the
`get_max_level` unwrap, the `get_max_level() - 1` starting level (whose
underflow when the maximum level is 0 cannot occur once the root has
children), and the descent loop.  The outer `none` models a panic, the inner
`none` the source's `None`. -/
def CNQuadtree.point_locate_core {T : Type} (t : CNQuadtree T) (point : Nat × Nat)
    (x_loc_code y_loc_code : Nat) : Option (Option Nat) :=
  match t.get_node t.root_key with
  | none => some none
  | some node =>
    if ¬ node.point_in point then some none
    else if node.children.isNone then some (some t.root_key)
    else
      match t.get_max_level with
      | none => none
      | some max_level =>
        if max_level = 0 then none
        else plDescent t point x_loc_code y_loc_code (t.store.slots.length + 1)
          t.root_key node (max_level - 1)

end CNQ

namespace CNQ

/-- The cross-level border walk as the specification words it (spec §4.6), to
be compared with the source's `find_cardinal_neighbor`: starting at the
inherited neighbor, each step increments the counter at the current
neighbor's relative depth below the child's depth and runs the binary-carry
pass; once the carry reaches relative depth 0 the walk stops and one further
`next_neighbor(direction)` step from the current position is the result.
Each counting/carry step is identical to the body of the source's loop; the
two definitions differ only in that the source tests `layers[0] != 0` before
ever counting, which is false at entry. -/
def fcnSpecLoop {T : Type} (t : CNQuadtree T) (child_layer : Nat) (d : Cardinality) :
    Nat → List Nat → Nat → CNNode T → Option Nat
  | 0, _, _, _ => none
  | fuel + 1, layers, _, cur =>
    let i := cur.layer - child_layer
    let layers := if layers.length ≤ i
      then layers ++ List.replicate (i + 1 - layers.length) 0 else layers
    let layers := layers.set i (layers.getD i 0 + 1)
    let layers := (List.range layers.length).reverse.foldl
      (fun ls j =>
        if 2 ≤ ls.getD j 0 ∧ j ≠ 0
        then (ls.set j 0).set (j - 1) (ls.getD (j - 1) 0 + 1)
        else ls) layers
    if layers.headD 0 ≠ 0 then cur.neighbors.get d.next_neighbor
    else do
      let idx2 ← cur.neighbors.get d.next_neighbor
      let cur2 ← t.get_node idx2
      fcnSpecLoop t child_layer d fuel layers idx2 cur2

/-- Entry point of the specification's cross-level walk (spec §4.6),
companion of `fcnSpecLoop`. -/
def find_cardinal_neighbor_spec {T : Type} (t : CNQuadtree T) (child_layer : Nat)
    (d : Cardinality) (inherited : Nat) : Option Nat := do
  let cur0 ← t.get_node inherited
  fcnSpecLoop t child_layer d (t.store.slots.length + 1) [0] inherited cur0

/-- Extract the tree carried by a `subdivide` outcome (both the success and
the error case carry the resulting state; the default covers the panic
case). -/
def okTree {T : Type} (o : Option (SubdivideOut T)) (dflt : CNQuadtree T) :
    CNQuadtree T :=
  match o with
  | some (.ok _ t) => t
  | some (.err _ t) => t
  | none => dflt

/-- Extract the tree carried by a `pop_children` outcome (the default covers
the panic case). -/
def popTree {T : Type} (o : Option (Option (Four T) × CNQuadtree T))
    (dflt : CNQuadtree T) : CNQuadtree T :=
  match o with
  | some (_, t) => t
  | none => dflt

/-- The specification's concrete scenario: a fresh tree with root bounds
`(0, 0, 100, 100)`.  Root payload 100; the key of the root is 0. -/
def tree0 : CNQuadtree Nat :=
  CNQuadtree.new 100 (0, 0, 100, 100)

/-- The scenario tree after `subdivide(root)`: children NW=1, NE=2, SW=3,
SE=4 with payloads 101..104. -/
def t1 : CNQuadtree Nat :=
  okTree (tree0.subdivide 0 ⟨101, 102, 103, 104⟩) tree0

/-- The tree after additionally subdividing the NE child (key 2): its
children are NW=5, NE=6, SW=7, SE=8 with payloads 105..108. -/
def t2 : CNQuadtree Nat :=
  okTree (t1.subdivide 2 ⟨105, 106, 107, 108⟩) t1

/-- The tree after `pop_children` of the NE child (key 2) of `t2`:
the immediate merge following the split. -/
def t3 : CNQuadtree Nat :=
  popTree (t2.pop_children 2) t2

/-- A five-node arena exhibiting a cross-level lookup whose inherited
neighbor is deeper than the node's new children: node 0 is an unsplit region
`(2, 0, 10, 8)` at depth 0, and its west border is tiled top to bottom by
the depth-2 regions 1..4 (each of height 2), chained through their `South`
pointers with node 0 as their common `East` neighbor; node 0's stored west
pointer is the topmost of them (key 1).  Splitting node 0 gives children at
depth 1, so the lookup for the SW child runs with `child_layer = 1` and the
inherited neighbor (key 1) at relative depth 1; the SW child spans the lower
half `(2, 4)..(2, 8)` of the border, whose topmost west neighbor is key 3. -/
def wtree : CNQuadtree Nat :=
  { store := ⟨[
      some (CNNode.mk 0 0 (2, 0, 10, 8) none ⟨some 1, none, none, none⟩ none),
      some (CNNode.mk 1 2 (0, 0, 2, 2) none ⟨none, none, some 0, some 2⟩ none),
      some (CNNode.mk 2 2 (0, 2, 2, 4) none ⟨none, some 1, some 0, some 3⟩ none),
      some (CNNode.mk 3 2 (0, 4, 2, 6) none ⟨none, some 2, some 0, some 4⟩ none),
      some (CNNode.mk 4 2 (0, 6, 2, 8) none ⟨none, some 3, some 0, none⟩ none)]⟩
    root_key := 0
    layers := [1, 0, 4] }

end CNQ

namespace CNQ

/-- The `get_neighbors` walk always returns at least one collected index:
every branch of the loop body, including fuel exhaustion, first appends the
current neighbor. -/
theorem gnLoop_ne_nil {T : Type} (t : CNQuadtree T) (node : CNNode T)
    (d : Cardinality) :
    ∀ (fuel nIdx : Nat) (nbr : CNNode T) (acc : List Nat),
      gnLoop t node d fuel nIdx nbr acc ≠ [] := by
  intro fuel
  induction fuel with
  | zero =>
    intro nIdx nbr acc
    simp [gnLoop]
  | succ n ih =>
    intro nIdx nbr acc
    simp only [gnLoop]
    repeat' split
    all_goals first
      | exact ih _ _ _
      | simp

/-- If every key in the list is live and some listed child has children,
the `pop_children` check loop reports `some true`. -/
theorem childrenHaveChildren_of_nonleaf {T : Type} (t : CNQuadtree T) :
    ∀ l : List Nat, (∀ c ∈ l, (t.get_node c).isSome) →
      (∃ c ∈ l, ∃ cnd, t.get_node c = some cnd ∧ cnd.children.isSome) →
      childrenHaveChildren t l = some true := by
  intro l
  induction l with
  | nil =>
    intro _ hex
    simp at hex
  | cons a rest ih =>
    intro hlive hex
    obtain ⟨nda, hnda⟩ := Option.isSome_iff_exists.mp (hlive a (by simp))
    by_cases hc : nda.children.isSome
    · simp [childrenHaveChildren, hnda, hc]
    · have hrest : ∃ c ∈ rest, ∃ cnd, t.get_node c = some cnd ∧ cnd.children.isSome := by
        obtain ⟨c, hcmem, cnd, hcnd, hcc⟩ := hex
        rcases List.mem_cons.mp hcmem with rfl | hmem
        · rw [hnda] at hcnd
          cases hcnd
          exact absurd hcc hc
        · exact ⟨c, hmem, cnd, hcnd, hcc⟩
      have := ih (fun c hcm => hlive c (List.mem_cons_of_mem _ hcm)) hrest
      simp [childrenHaveChildren, hnda, hc, this]

end CNQ

namespace CNQ

/-- C1: the specification's concrete scenario.  The first subdivide of the
root succeeds and produces children with exactly the claimed bounds, but the
second subdivide — of the NW child — does not return at all: it panics
(modelled by `none`) at the `second_child_cardinal_neighbor.unwrap()` inside
`update_neighbors_to_children`, because the cross-level lookup for the SE
child's East neighbor returned `None`.  The claimed grandchildren and the
`get_neighbors(NE, West)` result are therefore never produced. -/
theorem c1_scenario_eval :
    tree0.subdivide 0 ⟨101, 102, 103, 104⟩ = some (.ok ⟨1, 2, 3, 4⟩ t1) ∧
    (t1.get_node 1).map CNNode.bounds = some (0, 0, 50, 50) ∧
    (t1.get_node 2).map CNNode.bounds = some (50, 0, 100, 50) ∧
    (t1.get_node 3).map CNNode.bounds = some (0, 50, 50, 100) ∧
    (t1.get_node 4).map CNNode.bounds = some (50, 50, 100, 100) ∧
    t1.subdivide 1 ⟨105, 106, 107, 108⟩ = none := by
  decide

/-- C2: during the subdivide of the NE child (key 2), the pre-split West
neighbor list is `[1]` (the NW sibling); the claim says node 1's pointer in
`opposite(West) = East` is repointed to a new child.  Instead the source
writes the child key into node 1's **West** slot (the same direction that
was queried), leaving its East slot still aimed at the now-internal node
2. -/
theorem c2_repoint_direction_eval :
    t1.get_neighbors 2 .West = some [1] ∧
    (t1.get_node 1).map CNNode.neighbors = some ⟨none, none, some 2, some 3⟩ ∧
    t1.subdivide 2 ⟨105, 106, 107, 108⟩ = some (.ok ⟨5, 6, 7, 8⟩ t2) ∧
    (t2.get_node 1).map CNNode.neighbors = some ⟨some 7, none, some 2, some 3⟩ ∧
    Cardinality.West.opposite = .East := by
  decide

/-- C3: subdivide does not always terminate with `Ok` or an error value —
from the reachable once-split tree, subdividing the NW child panics
(modelled by `none`) at the `unwrap` in `update_neighbors_to_children`. -/
theorem c3_subdivide_crash :
    tree0.subdivide 0 ⟨101, 102, 103, 104⟩ = some (.ok ⟨1, 2, 3, 4⟩ t1) ∧
    t1.subdivide 1 ⟨105, 106, 107, 108⟩ = none := by
  decide

/-- C4: the counter-carry border walk never runs.  In `wtree` the inherited
neighbor (key 1) is at depth 2, one level below the new children's depth 1,
so the claim says the walk counts W1 and W2 (carrying to relative depth 0)
and returns key 3, the neighbor at the lower half of the border — as the
specification-worded walk `find_cardinal_neighbor_spec` indeed does.  The
source's `while layers[0] != 0` guard is false at entry (`layers = vec![0]`),
so `find_cardinal_neighbor` performs zero iterations and returns a single
`next_neighbor` step from the inherited neighbor: key 2, a node bordering
only the upper half. -/
theorem c4_cross_level_walk :
    find_cardinal_neighbor wtree 1 .West 1 = some 2 ∧
    find_cardinal_neighbor_spec wtree 1 .West 1 = some 3 ∧
    (wtree.get_node 1).map CNNode.layer = some 2 := by
  decide

/-- C5 counterexample: the root of a fresh tree is a live border node in
every direction, yet `get_neighbors` returns an absent result, not a present
empty list, and absence therefore does not imply an invalid index. -/
theorem c5_border_absent_counterexample :
    (tree0.get_node tree0.root_key).isSome ∧
    (tree0.get_node 0).map (fun nd => nd.neighbors.get .West) = some none ∧
    tree0.get_neighbors 0 .West = none := by
  decide

/-- C5 amended: `get_neighbors` returns an absent result when the index is
not live, when the live node's neighbor pointer in the queried direction is
absent (a border node), and when that pointer names a key that is not live;
a present result is always a non-empty list. -/
theorem c5_get_neighbors_absence {T : Type} (t : CNQuadtree T) (i : Nat)
    (d : Cardinality) :
    (t.get_node i = none → t.get_neighbors i d = none) ∧
    (∀ nd, t.get_node i = some nd → nd.neighbors.get d = none →
      t.get_neighbors i d = none) ∧
    (∀ nd fi, t.get_node i = some nd → nd.neighbors.get d = some fi →
      t.get_node fi = none → t.get_neighbors i d = none) ∧
    (∀ l, t.get_neighbors i d = some l → l ≠ []) := by
  refine ⟨?_, ?_, ?_, ?_⟩
  · intro h
    simp [CNQuadtree.get_neighbors, h]
  · intro nd h1 h2
    simp [CNQuadtree.get_neighbors, h1, h2]
  · intro nd fi h1 h2 h3
    simp [CNQuadtree.get_neighbors, h1, h2, h3]
  · intro l hl
    cases h1 : t.get_node i with
    | none => simp [CNQuadtree.get_neighbors, h1] at hl
    | some nd =>
      cases h2 : nd.neighbors.get d with
      | none => simp [CNQuadtree.get_neighbors, h1, h2] at hl
      | some fi =>
        cases h3 : t.get_node fi with
        | none => simp [CNQuadtree.get_neighbors, h1, h2, h3] at hl
        | some fnd =>
          simp [CNQuadtree.get_neighbors, h1, h2, h3] at hl
          exact hl ▸ gnLoop_ne_nil t nd d _ fi fnd []

/-- C5 witness: the amended statement at concrete inputs — a dead index, the
fresh root as a border node, the post-merge node 1 of `t3` whose West
pointer still names the removed key 7, and a present (hence non-empty)
list. -/
theorem c5_get_neighbors_absence_witness :
    tree0.get_neighbors 5 .West = none ∧
    tree0.get_neighbors 0 .North = none ∧
    t3.get_neighbors 1 .West = none ∧
    ([2] : List Nat) ≠ [] :=
  ⟨(c5_get_neighbors_absence tree0 5 .West).1 (by decide),
   (c5_get_neighbors_absence tree0 0 .North).2.1
     (CNNode.mk 100 0 (0, 0, 100, 100) none ⟨none, none, none, none⟩ none)
     (by decide) (by decide),
   (c5_get_neighbors_absence t3 1 .West).2.2.1
     (CNNode.mk 101 1 (0, 0, 50, 50) (some 0) ⟨some 7, none, some 2, some 3⟩ none)
     7 (by decide) (by decide) (by decide),
   (c5_get_neighbors_absence t1 1 .East).2.2.2 [2] (by decide)⟩

/-- C6: `point_locate` on the once-split tree.  A point outside the root's
bounds gives an absent result and a leaf root is returned directly (both as
claimed), but locating the point `(10, 90)` — strictly inside the SW leaf
`(0, 50, 50, 100)` — panics for every possible value of the floating-point
locational codes: the descent starts at `next_level = get_max_level() - 1 =
0` and the `(next_level - 1)` shift amount underflows. -/
theorem c6_point_locate_eval :
    (∀ xloc yloc : Nat, t1.point_locate_core (10, 90) xloc yloc = none) ∧
    (∀ xloc yloc : Nat, t1.point_locate_core (200, 10) xloc yloc = some none) ∧
    (∀ xloc yloc : Nat, tree0.point_locate_core (10, 90) xloc yloc = some (some 0)) ∧
    (t1.get_node 3).map CNNode.bounds = some (0, 50, 50, 100) := by
  refine ⟨fun _ _ => rfl, fun _ _ => rfl, fun _ _ => rfl, by decide⟩

/-- C7: a subdivide of the NE child (key 2) followed immediately by
`pop_children` returns the four payloads in NW/NE/SW/SE order and restores
the node to a leaf, but does not restore its neighbor pointers: before the
split they were West `1`, South `4`; after the merge they are West `3`,
South `3`. -/
theorem c7_round_trip_eval :
    (t1.get_node 2).map CNNode.neighbors = some ⟨some 1, none, none, some 4⟩ ∧
    t1.subdivide 2 ⟨105, 106, 107, 108⟩ = some (.ok ⟨5, 6, 7, 8⟩ t2) ∧
    t2.pop_children 2 = some (some ⟨105, 106, 107, 108⟩, t3) ∧
    (t3.get_node 2).map CNNode.neighbors = some ⟨some 3, none, none, some 3⟩ ∧
    (t3.get_node 2).map CNNode.children = some none := by
  decide

/-- C8: neighbor symmetry is broken in the reachable state `t2` (root split,
then NE child split): node 7 is in `get_neighbors(1, West)` but node 1 is
not in `get_neighbors(7, opposite(West)) = get_neighbors(7, East)`. -/
theorem c8_symmetry_eval :
    t2.get_neighbors 1 .West = some [7] ∧
    t2.get_neighbors 7 .East = some [8] ∧
    (7 : Nat) ∈ ([7] : List Nat) ∧
    (1 : Nat) ∉ ([8] : List Nat) ∧
    Cardinality.West.opposite = .East := by
  decide

/-- C9: subdivide checks its two preconditions before any mutation — a dead
index yields `InvalidIndex` and a node with children yields
`AlreadySubdivided`, in both cases carrying the caller's four items and the
completely unchanged tree. -/
theorem c9_subdivide_guard {T : Type} (t : CNQuadtree T) (i : Nat)
    (items : Four T) :
    (t.get_node i = none →
      t.subdivide i items = some (.err ⟨items, .InvalidIndex⟩ t)) ∧
    (∀ nd, t.get_node i = some nd → nd.children.isSome →
      t.subdivide i items = some (.err ⟨items, .AlreadySubdivided⟩ t)) := by
  constructor
  · intro h
    simp [CNQuadtree.subdivide, h]
  · intro nd h hc
    simp [CNQuadtree.subdivide, h, hc]

/-- C9 witness: both error cases at concrete inputs — a dead key on the
fresh tree, and the already-subdivided root of the once-split tree. -/
theorem c9_subdivide_guard_witness :
    tree0.subdivide 99 ⟨1, 2, 3, 4⟩ =
      some (.err ⟨⟨1, 2, 3, 4⟩, .InvalidIndex⟩ tree0) ∧
    t1.subdivide 0 ⟨1, 2, 3, 4⟩ =
      some (.err ⟨⟨1, 2, 3, 4⟩, .AlreadySubdivided⟩ t1) :=
  ⟨(c9_subdivide_guard tree0 99 ⟨1, 2, 3, 4⟩).1 (by decide),
   (c9_subdivide_guard t1 0 ⟨1, 2, 3, 4⟩).2
     (CNNode.mk 100 0 (0, 0, 100, 100) none ⟨none, none, none, none⟩
       (some ⟨1, 2, 3, 4⟩))
     (by decide) (by decide)⟩

/-- C10: `pop_children` returns an absent result and leaves the tree
completely unchanged when the node does not exist, has no children, or has
a (live) child that is not a leaf. -/
theorem c10_pop_children_guard {T : Type} (t : CNQuadtree T) (i : Nat) :
    (t.get_node i = none → t.pop_children i = some (none, t)) ∧
    (∀ nd, t.get_node i = some nd → nd.children = none →
      t.pop_children i = some (none, t)) ∧
    (∀ nd q, t.get_node i = some nd → nd.children = some q →
      (∀ c ∈ q.toList, (t.get_node c).isSome) →
      (∃ c ∈ q.toList, ∃ cnd, t.get_node c = some cnd ∧ cnd.children.isSome) →
      t.pop_children i = some (none, t)) := by
  refine ⟨?_, ?_, ?_⟩
  · intro h
    simp [CNQuadtree.pop_children, h]
  · intro nd h1 h2
    simp [CNQuadtree.pop_children, h1, h2]
  · intro nd q h1 h2 hlive hex
    have hc := childrenHaveChildren_of_nonleaf t q.toList hlive hex
    simp [CNQuadtree.pop_children, h1, h2, hc]

/-- C10 witness: merging the root of `t2` is refused and mutates nothing,
because its NE child (key 2) is itself subdivided. -/
theorem c10_pop_children_guard_witness :
    t2.pop_children 0 = some (none, t2) :=
  (c10_pop_children_guard t2 0).2.2
    (CNNode.mk 100 0 (0, 0, 100, 100) none ⟨none, none, none, none⟩
      (some ⟨1, 2, 3, 4⟩))
    ⟨1, 2, 3, 4⟩ (by decide) (by decide) (by decide) (by decide)

end CNQ
